import Mathlib

/-!
# Verification of the Fixed-Income-Details bond library

Shallow embedding of `src/library/pricing.py` and `src/library/yield.py`.

Modelling conventions:
* numpy float64 arithmetic is modelled by exact rational arithmetic (`ℚ`).
  `np.round(x, 2)` (round-half-to-even) is `round2`.
* The repository's entry points take scalar arguments in every scenario the
  claims mention; the embedding is the scalar instance, so the
  `size`-mismatch fail-safes (which compare the sizes of the scalar inputs
  and can never fire on scalars) are omitted.  The batched yield grid of
  `bond_yield_maturity_calc` is modelled by mapping the scalar pricer over
  the grid, which is exactly numpy's element-wise broadcast.
* `bond_len` ("number of bond periods", documented as `int`) is a `ℕ`, so
  `np.power(1 + y, bond_len)` is exact monoid exponentiation.
* Fractional-exponent `np.power` (settlement pricing discounts by
  `(1+y)^(time_ratio + k)` with non-integer `time_ratio`) has no exact
  rational value; the settlement pricer is parametrised by an arbitrary
  `rpow : ℚ → ℚ → ℚ` standing for float `np.power`.  Theorems about it are
  quantified over every `rpow`, hence hold for the float instance.
* The conditional `print` reporting side channel is modelled by a
  `List ℚ` log of the numeric payloads, returned next to the value.
-/

namespace FixedIncome

instance {ε α : Type} [DecidableEq ε] [DecidableEq α] : DecidableEq (Except ε α) := fun a b =>
  match a, b with
  | .error e, .error f => decidable_of_iff (e = f) (by simp)
  | .ok x, .ok y => decidable_of_iff (x = y) (by simp)
  | .error _, .ok _ => isFalse (by simp)
  | .ok _, .error _ => isFalse (by simp)

/-- `str.lower()`: ASCII-lowercase a string (kernel-reducible model of
`String.toLower`). -/
def strLower (s : String) : String := ⟨s.data.map Char.toLower⟩

/-- Round-half-to-even on `ℚ` to an integer, the rounding mode of
`np.round`.  -/
def roundHalfEven (x : ℚ) : ℤ :=
  if x - ⌊x⌋ < 1/2 then ⌊x⌋
  else if 1/2 < x - ⌊x⌋ then ⌊x⌋ + 1
  else if ⌊x⌋ % 2 = 0 then ⌊x⌋ else ⌊x⌋ + 1

/-- `np.round(x, decimals=2)`: round to two decimal places
(half-to-even). -/
def round2 (x : ℚ) : ℚ := (roundHalfEven (100 * x) : ℚ) / 100

/-- The rate-format adjustment applied throughout the library:
`np.where(r > 1, np.divide(r, 100), r)`. -/
def normalize (r : ℚ) : ℚ := if 1 < r then r / 100 else r

/-- Value returned by `bond_cash_flow_calc` (lines 4-55 of `pricing.py`):
the per-period coupon payment, the par value, and the adjusted period
count. -/
structure CashFlow where
  coupon_per : ℚ
  par_val : ℚ
  bond_len : ℕ
  deriving DecidableEq, Repr

/-- `bond_cash_flow_calc(bond_len, coupon_per, par_val, len_time, details)`
(`pricing.py` lines 4-55), scalar instance.  Returns the error string of
the period-length fail-safe or the result triple, together with the log of
numbers the `details` branch would print. -/
def bond_cash_flow_calc (bond_len : ℕ) (coupon_per par_val : ℚ)
    (len_time : String) (details : Bool) :
    Except String CashFlow × List ℚ :=
  if ¬(strLower len_time = "semiannual" ∨ strLower len_time = "annual") then
    (.error "Incorrect period length description", [])
  else
    -- period = np.where(len_time.lower()=='semiannual', 2, 1)
    let period : ℕ := if strLower len_time = "semiannual" then 2 else 1
    let bond_len := bond_len * period
    let coupon_per := coupon_per / (period : ℚ)
    let coupon_per := normalize coupon_per
    let coupon_per := par_val * coupon_per
    (.ok ⟨coupon_per, par_val, bond_len⟩,
      if details then [coupon_per, (bond_len : ℚ), par_val] else [])

/-- Value returned by `bond_price_calc` (`pricing.py` lines 57-122): the
present value of the coupon stream, of the redemption amount, and their
sum, each rounded to 2 decimals. -/
structure ParPrice where
  coupon_pay_price : ℚ
  par_val_price : ℚ
  bond_price : ℚ
  deriving DecidableEq, Repr

/-- `bond_price_calc(bond_len, coupon_per, par_val, req_yield_per,
call_val, len_time, details)` (`pricing.py` lines 57-122), scalar
instance.  `period` is built exactly as in lines 91-93
(`np.where(semiannual, 12/6, 0) + np.where(annual, 12/12, 0)`).  Note that
division by a zero yield (line 107) is modelled by Lean's `q / 0 = 0`
convention where numpy produces `nan`. -/
def bond_price_calc (bond_len : ℕ) (coupon_per par_val req_yield_per call_val : ℚ)
    (len_time : String) (details : Bool) :
    Except String ParPrice × List ℚ :=
  if ¬(strLower len_time = "semiannual" ∨ strLower len_time = "annual") then
    (.error "Incorrect period length description", [])
  else
    let period : ℕ :=
      (if strLower len_time = "semiannual" then 2 else 0) +
      (if strLower len_time = "annual" then 1 else 0)
    let bond_len := bond_len * period
    let coupon_per := coupon_per / (period : ℚ)
    let req_yield_per := req_yield_per / (period : ℚ)
    let coupon_per := normalize coupon_per
    let req_yield_per := normalize req_yield_per
    -- line 103: coupon_pay, par_val = bond_cash_flow_calc(..., len_time='annual')[0:2]
    let cfPair := bond_cash_flow_calc bond_len coupon_per par_val "annual" details
    match cfPair.1 with
    | .error s => (.error s, [])               -- unreachable: 'annual' is valid
    | .ok cf =>
      let cfLog := cfPair.2
      let coupon_pay := cf.coupon_per
      let par_val := cf.par_val
      let par_val := if 0 < call_val then call_val else par_val
      let coupon_pay_price :=
        round2 (coupon_pay * ((1 - 1 / (1 + req_yield_per) ^ bond_len) / req_yield_per))
      let par_val_price :=
        round2 (par_val * (1 / (1 + req_yield_per) ^ bond_len))
      let bond_price := round2 (coupon_pay_price + par_val_price)
      (.ok ⟨coupon_pay_price, par_val_price, bond_price⟩,
        cfLog ++ (if details then [coupon_pay_price, par_val_price, bond_price] else []))

lemma strLower_annual : strLower "annual" = "annual" := by decide

lemma strLower_semiannual : strLower "semiannual" = "semiannual" := by decide

lemma annual_ne_semiannual : ("annual" : String) ≠ "semiannual" := by decide

/-! ## Dates

`np.datetime64[D]` values are calendar days; comparison and subtraction act
on the underlying day count.  A `Date` is a Gregorian calendar date;
`daysFromCivil` is the standard civil-calendar day number (days since
1970-01-01), matching numpy's internal representation.  Month-resolution
values (`np.datetime64[M]`) are represented by their month count
`12*year + (month-1)`; converting one back to day resolution yields the
first day of the month, as in numpy. -/

structure Date where
  year : ℤ
  month : ℕ
  day : ℕ
  deriving DecidableEq, Repr

/-- Day number of a Gregorian date, 1970-01-01 = day 0 (the civil-calendar
algorithm, with floor division). -/
def daysFromCivil (dt : Date) : ℤ :=
  let y : ℤ := if dt.month ≤ 2 then dt.year - 1 else dt.year
  let era : ℤ := y.fdiv 400
  let yoe : ℤ := y - era * 400
  let doy : ℤ := (153 * (((dt.month : ℤ) + 9) % 12) + 2).fdiv 5 + dt.day - 1
  let doe : ℤ := yoe * 365 + yoe.fdiv 4 - yoe.fdiv 100 + doy
  era * 146097 + doe - 719468

/-- Month count of a date's `np.datetime64[M]` truncation. -/
def monthsAbs (dt : Date) : ℤ := 12 * dt.year + dt.month - 1

/-- Convert a month count back to day resolution: the first day of that
month. -/
def monthFirstDay (t : ℤ) : Date := ⟨t.fdiv 12, (t % 12).toNat + 1, 1⟩

/-- `(timedelta in days).astype('timedelta64[M]')`: numpy's unsafe cast
between day and month timedelta units divides by the average month length
1 M = 30.436875 D = 48699/1600 D, truncating toward zero. -/
def monthsBetweenCast (days : ℤ) : ℤ := (days * 1600).tdiv 48699

/-- `actual_time_ratio_calc(nd1, sd2, period)` (`pricing.py` lines
124-144): actual day counts between next pay date and settlement, over the
actual days in the 6-month window ending at the next pay date.  (`period`
is unused in the source body as well.) -/
def actual_time_ratio_calc (nd1 sd2 : Date) (period : ℕ) : ℚ × ℚ :=
  let numer : ℚ := ((daysFromCivil nd1 - daysFromCivil sd2 : ℤ) : ℚ)
  let denom : ℚ :=
    ((daysFromCivil nd1 - daysFromCivil (monthFirstDay (monthsAbs nd1 - 6)) : ℤ) : ℚ)
  (numer / denom, (denom - numer) / denom)

/-- `thirtysixty_time_ratio_calc(sd1, dr2, td3, period)` (`pricing.py`
lines 146-169): 30/360 day-count ratio. -/
def thirtysixty_time_ratio_calc (sd1 : Date) (dr2 td3 : ℤ) (period : ℕ) : ℚ × ℚ :=
  -- days_passed = (sd1 - (np.datetime64(sd1,'M') - 1 day)) in days
  let days_passed : ℤ := daysFromCivil sd1 - (daysFromCivil (monthFirstDay (monthsAbs sd1)) - 1)
  let days_remaining : ℤ := if 30 < dr2 + days_passed then 30 - days_passed else dr2
  let numer : ℚ := (((td3 - 1) * 30 + days_remaining + 1 : ℤ) : ℚ)
  let denom : ℚ := 30 * (period : ℚ)
  (numer / denom, (denom - numer) / denom)

/-- `next_pay_date_calc(sd1, md2, period)` (`pricing.py` lines 171-188):
next coupon date, days remaining in the settlement month, and the month
offset to the next coupon. -/
def next_pay_date_calc (sd1 md2 : Date) (period : ℕ) : Date × ℤ × ℤ :=
  let days_remaining : ℤ :=
    (daysFromCivil (monthFirstDay (monthsAbs sd1 + 1)) - 1) - daysFromCivil sd1
  let time_diff : ℤ :=
    monthsBetweenCast (daysFromCivil md2 - daysFromCivil sd1) % (period : ℤ)
  let time_diff : ℤ := if 0 < days_remaining then time_diff + 1 else time_diff
  (monthFirstDay (monthsAbs sd1 + time_diff), days_remaining, time_diff)

/-- `time_ratio_calc(mat_date, sett_date, period, date_calc, len_time)`
(`pricing.py` lines 190-238).  `period` is the 1/2 periods-per-year
factor computed by the caller.  Note: the fail-safe checks
`date_calc.lower()`, but the two `np.where` dispatches compare `date_calc`
without lowering, exactly as in the source, so e.g. `"Actual"` passes the
fail-safe yet produces `time_ratio == 0` and the secondary failure.
(`len_time` is unused in the source body as well.) -/
def time_ratio_calc (mat_date sett_date : Date) (period : ℕ)
    (date_calc len_time : String) : Except String (ℚ × ℚ) :=
  if daysFromCivil mat_date ≤ daysFromCivil sett_date then
    .error "Settlement cannot come after maturity of bond!"
  else if ¬(strLower date_calc = "3060" ∨ strLower date_calc = "actual") then
    .error "Incorrect description for timing calculation"
  else
    let mpp : ℕ := 12 / period
    let npd := next_pay_date_calc sett_date mat_date mpp
    let time_ratio_3060 : ℚ :=
      if date_calc = "3060" then (thirtysixty_time_ratio_calc sett_date npd.2.1 npd.2.2 mpp).1 else 0
    let ai_ratio_3060 : ℚ :=
      if date_calc = "3060" then (thirtysixty_time_ratio_calc sett_date npd.2.1 npd.2.2 mpp).2 else 0
    let time_ratio_actual : ℚ :=
      if date_calc = "actual" then (actual_time_ratio_calc npd.1 sett_date mpp).1 else 0
    let ai_ratio_actual : ℚ :=
      if date_calc = "actual" then (actual_time_ratio_calc npd.1 sett_date mpp).2 else 0
    let time_ratio := time_ratio_3060 + time_ratio_actual
    let ai_ratio := ai_ratio_3060 + ai_ratio_actual
    if time_ratio = 0 then .error "Incorrect timing calculated"
    else .ok (time_ratio, ai_ratio)

/-- Outcome of `bond_price_calc_sett`: an error string returned by a
fail-safe (`strRes`), an uncontrolled Python exception (`fault`, e.g. an
`IndexError` on an empty schedule), or a numeric price. -/
inductive SettOut where
  | strRes (s : String)
  | fault
  | val (price : ℚ)
  deriving DecidableEq, Repr

/-- Add `a` to the numeric payload of a settlement outcome, if any. -/
def SettOut.addVal (a : ℚ) : SettOut → SettOut
  | .val q => .val (q + a)
  | r => r

/-- `bond_price_calc_sett(bond_len, coupon_per, par_val, req_yield_per,
price, date_calc, len_time, details)` (`pricing.py` lines 240-316), with
`bond_len = [mat_date, sett_date]`.  `rpow` stands for the float
`np.power` with fractional exponents (line 300); every theorem below is
quantified over it.  When `time_ratio_calc` fails with a string `s`, the
source reads `time_ratio = time_ratio_calc(...)[0]`, which is the FIRST
CHARACTER of `s`, and then returns it (lines 286-289); this is modelled by
`s.take 1`. -/
def bond_price_calc_sett (rpow : ℚ → ℚ → ℚ) (mat_date sett_date : Date)
    (coupon_per par_val req_yield_per : ℚ) (price date_calc len_time : String)
    (details : Bool) : SettOut × List ℚ :=
  if ¬(strLower len_time = "semiannual" ∨ strLower len_time = "annual") then
    (.strRes "Incorrect period length description", [])
  else if ¬(strLower price = "clean" ∨ strLower price = "dirty") then
    (.strRes "Incorrect price description", [])
  else
    let period : ℕ :=
      (if strLower len_time = "semiannual" then 2 else 0) +
      (if strLower len_time = "annual" then 1 else 0)
    let bond_len : ℤ :=
      ⌈((monthsBetweenCast (daysFromCivil mat_date - daysFromCivil sett_date) : ℚ)
        / ((12 : ℚ) / (period : ℚ)))⌉
    let coupon_per := normalize (coupon_per / (period : ℚ))
    let req_yield_per := normalize (req_yield_per / (period : ℚ))
    match time_ratio_calc mat_date sett_date period date_calc len_time with
    | .error s => (.strRes (s.take 1), [])
    | .ok (time_ratio, ai_ratio) =>
      let cfPair := bond_cash_flow_calc bond_len.toNat coupon_per par_val "annual" details
      match cfPair.1 with
      | .error _ => (.fault, [])             -- unreachable: 'annual' is always valid
      | .ok cf =>
        let cfLog := cfPair.2
        let coupon_pay := cf.coupon_per
        -- bond_len = np.where(time_ratio.is_integer(), bond_len + 1, bond_len)
        let bond_len := if ((⌊time_ratio⌋ : ℚ) = time_ratio) then bond_len + 1 else bond_len
        let n : ℕ := bond_len.toNat
        let periods : List ℚ := List.map (fun k : ℕ => (k : ℚ) + time_ratio) (List.range n)
        let coupon_pays : List ℚ := List.replicate n coupon_pay
        match coupon_pays.head? with
        | none => (.fault, cfLog)            -- coupon_pay[0]: IndexError on an empty schedule
        | some c0 =>
          let ai_price := c0 * ai_ratio
          let coupon_pays := coupon_pays.set (n - 1) (coupon_pay + par_val)
          let bond_price : List ℚ :=
            List.zipWith (fun c e => c / rpow (1 + req_yield_per) e) coupon_pays periods
          let bond_price :=
            if strLower price = "clean" then bond_price.modifyHead (fun b => b - ai_price)
            else bond_price
          let total := bond_price.sum
          (.val total,
            cfLog ++ (if details then ai_price :: (periods ++ coupon_pays ++ bond_price ++ [total])
                      else []))

/-- The accrued interest of a settlement-date valuation: the per-period
coupon amount produced by the cash-flow step times the accrued-interest
ratio of the day-count step (`ai_price = coupon_pay[0] * ai_ratio`,
`pricing.py` line 298); `0` if the day-count step fails. -/
def accrued_interest (mat_date sett_date : Date) (coupon_per par_val : ℚ)
    (date_calc len_time : String) : ℚ :=
  let period : ℕ :=
    (if strLower len_time = "semiannual" then 2 else 0) +
    (if strLower len_time = "annual" then 1 else 0)
  let coupon_per := normalize (coupon_per / (period : ℚ))
  match time_ratio_calc mat_date sett_date period date_calc len_time with
  | .error _ => 0
  | .ok (_, ai_ratio) => (par_val * normalize coupon_per) * ai_ratio

/-! ## Yield-to-maturity solver (`yield.py`) -/

/-- Outcome of `bond_yield_maturity_calc`: either a yield value or an
uncontrolled Python exception (`fault`): an `IndexError` from indexing one
past the end of the sorted price array or into an empty match array, or
the `TypeError` of `np.round` applied to the error string a failed
validation makes the batched pricing call return. -/
inductive YtmOut where
  | fault
  | val (q : ℚ)
  deriving DecidableEq, Repr

/-- `np.arange(.01, 100, .01)`: the 9,999-point candidate yield grid
0.01, 0.02, ..., 99.99. -/
def req_yield_grid : List ℚ := (List.range 9999).map (fun k : ℕ => ((k : ℚ) + 1) / 100)

/-- The scalar `bond_price_calc(...)[2]`: the total present value for one
yield.  The `0` in the error arm is never reached when `len_time` is
valid. -/
def price3 (bond_len : ℕ) (coupon_per par_val req_yield_per call_val : ℚ)
    (len_time : String) : ℚ :=
  match (bond_price_calc bond_len coupon_per par_val req_yield_per call_val len_time false).1 with
  | .ok r => r.bond_price
  | .error _ => 0

/-- The array `bond_prices` of `yield.py` line 85: the batched
`bond_price_calc(...)[2]` over the yield grid (numpy broadcasts the scalar
bond over the array-valued yield, i.e. maps the scalar pricer). -/
def grid_prices (bond_len : ℕ) (coupon_per par_val call_val : ℚ) (len_time : String) : List ℚ :=
  req_yield_grid.map (fun y => price3 bond_len coupon_per par_val y call_val len_time)

/-- `np.searchsorted(a, v)` with the default `side='left'` on an ascending
array: the leftmost insertion index, i.e. the number of entries strictly
below `v`. -/
def searchsorted (l : List ℚ) (v : ℚ) : ℕ := l.countP (fun x => decide (x < v))

/-- `.shape` of a 1-d numpy array. -/
def shapeOf (l : List ℕ) : List ℕ := [l.length]

/-- The `except:` branch of `yield.py` lines 91-95: sort the prices, find
the insertion point of the rounded observed price, and collect the indices
whose price equals the entry at that point.  `none` models the
`IndexError` raised when the insertion point is one past the end. -/
def nearest_match (bond_prices : List ℚ) (bond_price : ℚ) : Option (List ℕ) :=
  match (List.insertionSort (fun a b => a ≤ b) bond_prices)[
      searchsorted ((List.insertionSort (fun a b => a ≤ b) bond_prices).map round2)
        (round2 bond_price)]? with
  | none => none
  | some v => some ((bond_prices.enum.filter (fun q => decide (q.2 = v))).map Prod.fst)

/-- The `try:` block's match-index array (`yield.py` line 89):
`np.where(np.round(bond_prices, 2) == np.round(bond_price, 2))[0]`. -/
def ytm_exact_idxs (bond_prices : List ℚ) (bond_price : ℚ) : List ℕ :=
  (bond_prices.enum.filter (fun q => decide (round2 q.2 = round2 bond_price))).map Prod.fst

/-- The index array the solver actually uses (`yield.py` lines 88-95): the
`try:` block computes the exact-match index array and then evaluates
`bond_index.shape[1]`; the modelled shape access `(shapeOf _)[1]?` is
`none` exactly when Python raises the `IndexError` that sends control to
the `except:` nearest-match branch. -/
def ytm_index (bond_prices : List ℚ) (bond_price : ℚ) : Option (List ℕ) :=
  match (shapeOf (ytm_exact_idxs bond_prices bond_price))[1]? with
  | some _ => some (ytm_exact_idxs bond_prices bond_price)  -- dead: 1-d shape has no [1]
  | none => nearest_match bond_prices bond_price

/-- The returned value `req_yield_pers[bond_index][0]` (`yield.py` line
100): the first grid yield selected by the index array.  An empty index
array makes the `[0]` raise `IndexError` (`fault`); a present index always
lies within the 9,999-entry grid because it indexes the price array of the
same length. -/
def ytm_out (bond_prices : List ℚ) (bond_price : ℚ) : YtmOut :=
  match ytm_index bond_prices bond_price with
  | none => .fault
  | some idxs =>
    match idxs.head? with
    | none => .fault
    | some i => .val (req_yield_grid.getD i 0)

/-- The `details` print (`yield.py` lines 97-98): the selected yield
divided by 100, emitted only on success and only when `details`. -/
def ytm_log (out : YtmOut) (details : Bool) : List ℚ :=
  match out with
  | .val y => if details then [y / 100] else []
  | .fault => []

/-- `bond_yield_maturity_calc(bond_len, coupon_per, bond_price, par_val,
call_val, len_time, details)` (`yield.py` lines 64-100), assembled from
the helpers above.  An invalid `len_time` makes the batched pricing call
return an error string, and `np.round` on that string raises `TypeError`
inside the `try:` whose `except:` then also fails the same way in
`bond_prices.copy()`: a `fault` before any index is computed. -/
def bond_yield_maturity_calc (bond_len : ℕ) (coupon_per bond_price par_val call_val : ℚ)
    (len_time : String) (details : Bool) : YtmOut × List ℚ :=
  if ¬(strLower len_time = "semiannual" ∨ strLower len_time = "annual") then
    (.fault, [])
  else
    (ytm_out (grid_prices bond_len coupon_per par_val call_val len_time) bond_price,
     ytm_log (ytm_out (grid_prices bond_len coupon_per par_val call_val len_time) bond_price)
       details)

/-- `ytm_out` with the dead `try:` branch removed: the nearest-match
computation alone. -/
def ytm_out_noTry (bond_prices : List ℚ) (bond_price : ℚ) : YtmOut :=
  match nearest_match bond_prices bond_price with
  | none => .fault
  | some idxs =>
    match idxs.head? with
    | none => .fault
    | some i => .val (req_yield_grid.getD i 0)

/-- The refinement target of the solver claims: `bond_yield_maturity_calc`
with the dead `try:` branch removed, i.e. the nearest-match computation
alone. -/
def bond_yield_maturity_calc_noTry (bond_len : ℕ)
    (coupon_per bond_price par_val call_val : ℚ)
    (len_time : String) (details : Bool) : YtmOut × List ℚ :=
  if ¬(strLower len_time = "semiannual" ∨ strLower len_time = "annual") then
    (.fault, [])
  else
    (ytm_out_noTry (grid_prices bond_len coupon_per par_val call_val len_time) bond_price,
     ytm_log (ytm_out_noTry (grid_prices bond_len coupon_per par_val call_val len_time)
       bond_price) details)

/-- The shape access on the 1-d match array never yields a second entry:
`ytm_index` always takes the `except:` path. -/
lemma ytm_index_eq_nearest (bp : List ℚ) (p : ℚ) :
    ytm_index bp p = nearest_match bp p := rfl

/-- With and without the dead `try:` branch the selected outcome is the
same. -/
lemma ytm_out_eq_noTry (bp : List ℚ) (p : ℚ) : ytm_out bp p = ytm_out_noTry bp p := by
  unfold ytm_out ytm_out_noTry
  rw [ytm_index_eq_nearest]

/-- Reduction of `ytm_out` when the nearest match selects a first index. -/
lemma ytm_out_val (bp : List ℚ) (p : ℚ) (L : List ℕ) (i : ℕ)
    (hnm : nearest_match bp p = some L) (hh : L.head? = some i) :
    ytm_out bp p = .val (req_yield_grid.getD i 0) := by
  unfold ytm_out
  rw [ytm_index_eq_nearest, hnm]
  simp only [hh]

/-- Reduction of `ytm_out` when the nearest-match lookup raises. -/
lemma ytm_out_fault_of_none (bp : List ℚ) (p : ℚ)
    (hnm : nearest_match bp p = none) : ytm_out bp p = .fault := by
  unfold ytm_out
  rw [ytm_index_eq_nearest, hnm]

/-- On a valid frequency the solver is the pair of outcome and log. -/
lemma solver_valid (bl : ℕ) (c p par call : ℚ) (lt : String) (d : Bool)
    (hlt : strLower lt = "semiannual" ∨ strLower lt = "annual") :
    bond_yield_maturity_calc bl c p par call lt d =
      (ytm_out (grid_prices bl c par call lt) p,
       ytm_log (ytm_out (grid_prices bl c par call lt) p) d) := by
  delta bond_yield_maturity_calc
  rw [if_neg (not_not_intro hlt)]

/-! ## String and rounding lemmas -/

lemma strLower_clean : strLower "clean" = "clean" := by decide

lemma strLower_dirty : strLower "dirty" = "dirty" := by decide

lemma dirty_ne_clean : ("dirty" : String) ≠ "clean" := by decide

lemma roundHalfEven_intCast (n : ℤ) : roundHalfEven (n : ℚ) = n := by
  unfold roundHalfEven
  norm_num

lemma round2_idem (x : ℚ) : round2 (round2 x) = round2 x := by
  unfold round2
  have h : (100 : ℚ) * ((roundHalfEven (100 * x) : ℚ) / 100) = (roundHalfEven (100 * x) : ℚ) := by
    field_simp
  rw [h, roundHalfEven_intCast]

lemma round2_intCast_div100 (n : ℤ) : round2 ((n : ℚ) / 100) = (n : ℚ) / 100 := by
  unfold round2
  have h : (100 : ℚ) * ((n : ℚ) / 100) = (n : ℚ) := by field_simp
  rw [h, roundHalfEven_intCast]

lemma roundHalfEven_le (x : ℚ) : (roundHalfEven x : ℚ) ≤ x + 1/2 := by
  unfold roundHalfEven
  have hfl : (⌊x⌋ : ℚ) ≤ x := Int.floor_le x
  split_ifs with h1 h2 h3
  · linarith
  · push_cast
    linarith
  · linarith
  · push_cast
    linarith

lemma le_roundHalfEven (x : ℚ) : x - 1/2 ≤ (roundHalfEven x : ℚ) := by
  unfold roundHalfEven
  have hfl : x < ⌊x⌋ + 1 := Int.lt_floor_add_one x
  split_ifs with h1 h2 h3
  · linarith
  · push_cast
    linarith
  · linarith
  · push_cast
    linarith

lemma round2_le (x : ℚ) : round2 x ≤ x + 1/200 := by
  unfold round2
  have h := roundHalfEven_le (100 * x)
  rw [div_le_iff₀ (by norm_num : (0:ℚ) < 100)]
  linarith

lemma le_round2 (x : ℚ) : x - 1/200 ≤ round2 x := by
  unfold round2
  have h := le_roundHalfEven (100 * x)
  rw [le_div_iff₀ (by norm_num : (0:ℚ) < 100)]
  linarith

/-! ## C1 -/

/-- C1: for tenor 1, coupon rate 5 (percent form), par 1000, yield 6
(percent form), no call value, annual frequency, `bond_price_calc` returns
`coupon_pv = 47.17`, `redemption_pv = 943.40`, `total_pv = 990.57`. -/
theorem C1_concrete_par_price :
    (bond_price_calc 1 5 1000 6 0 "annual" true).1 =
      .ok ⟨47.17, 943.40, 990.57⟩ := by
  norm_num [bond_price_calc, bond_cash_flow_calc, normalize, round2, roundHalfEven,
    strLower_annual, annual_ne_semiannual]

/-! ## C3 -/

/-- C3: at `yield_rate = 0` the code does NOT special-case the annuity
factor: numpy evaluates `(1 - 1) / 0 = nan` (modelled by `ℚ`'s `0/0 = 0`)
and the returned coupon present value is not `coupon_amount × tenor = 50`.
The claim describes the intended behaviour; the code lacks the special
case. -/
theorem C3_zero_yield_eval :
    ∃ r, (bond_price_calc 1 5 1000 0 0 "annual" false).1 = .ok r ∧
      r.coupon_pay_price = 0 ∧ r.coupon_pay_price ≠ 50 * 1 := by
  refine ⟨⟨0, 1000, 1000⟩, ?_, rfl, by norm_num⟩
  norm_num [bond_price_calc, bond_cash_flow_calc, normalize, round2, roundHalfEven,
    strLower_annual, annual_ne_semiannual]

/-! ## C10 -/

/-- C10: `bond_index.shape[1]` raises on every input (the match-index
array is 1-dimensional), so the `except:` nearest-match path always
executes and `bond_yield_maturity_calc` is equivalent to the variant with
the `try:` branch removed. -/
theorem C10_try_branch_dead (bond_len : ℕ) (coupon_per bond_price par_val call_val : ℚ)
    (len_time : String) (details : Bool) :
    bond_yield_maturity_calc bond_len coupon_per bond_price par_val call_val len_time details =
      bond_yield_maturity_calc_noTry bond_len coupon_per bond_price par_val call_val
        len_time details := by
  delta bond_yield_maturity_calc bond_yield_maturity_calc_noTry
  by_cases h : ¬(strLower len_time = "semiannual" ∨ strLower len_time = "annual")
  · rw [if_pos h, if_pos h]
  · rw [if_neg h, if_neg h, ytm_out_eq_noTry]

/-! ## Closed forms for the par-date pricing chain -/

/-- The periods-per-year factor of `bond_price_calc` (lines 91-93). -/
def periodOf (len_time : String) : ℕ :=
  (if strLower len_time = "semiannual" then 2 else 0) +
  (if strLower len_time = "annual" then 1 else 0)

/-- The discounting step of par-date pricing (lines 107-109): annuity
present value of the coupon stream, discounted redemption, and their sum,
each rounded to 2 decimals. -/
def discount_step (tenor : ℕ) (coupon_amount redemption yld : ℚ) : ParPrice :=
  let cpv := round2 (coupon_amount * ((1 - 1 / (1 + yld) ^ tenor) / yld))
  let rpv := round2 (redemption * (1 / (1 + yld) ^ tenor))
  ⟨cpv, rpv, round2 (cpv + rpv)⟩

/-- Closed form of the `bond_cash_flow_calc` result for a valid
frequency. -/
lemma bond_cash_flow_calc_val (len_time : String)
    (h : strLower len_time = "semiannual" ∨ strLower len_time = "annual")
    (bond_len : ℕ) (coupon_per par_val : ℚ) (details : Bool) :
    (bond_cash_flow_calc bond_len coupon_per par_val len_time details).1 =
      .ok ⟨par_val * normalize (coupon_per /
              ((if strLower len_time = "semiannual" then 2 else 1 : ℕ) : ℚ)),
            par_val,
            bond_len * (if strLower len_time = "semiannual" then 2 else 1)⟩ := by
  unfold bond_cash_flow_calc
  rw [if_neg (not_not_intro h)]

/-- Closed form of the `bond_price_calc` result for a valid frequency:
the coupon rate is period-adjusted and then normalized twice (once at
lines 95/99 and once more inside `bond_cash_flow_calc`, which is called
with the already-normalized rate); the yield is period-adjusted and
normalized once; the redemption is overridden by a positive call value;
the discounting uses the period-scaled tenor. -/
lemma bond_price_calc_val (len_time : String)
    (h : strLower len_time = "semiannual" ∨ strLower len_time = "annual")
    (bond_len : ℕ) (coupon_per par_val req_yield_per call_val : ℚ) (details : Bool) :
    (bond_price_calc bond_len coupon_per par_val req_yield_per call_val len_time details).1 =
      .ok (discount_step (bond_len * periodOf len_time)
            (par_val * normalize (normalize (coupon_per / (periodOf len_time : ℚ))))
            (if 0 < call_val then call_val else par_val)
            (normalize (req_yield_per / (periodOf len_time : ℚ)))) := by
  unfold bond_price_calc
  rw [if_neg (not_not_intro h)]
  dsimp only
  rw [bond_cash_flow_calc_val "annual" (Or.inr strLower_annual)]
  simp only [discount_step, periodOf, strLower_annual, annual_ne_semiannual,
    if_false, Nat.cast_one, div_one, Nat.cast_ofNat, mul_one]

/-! ## C9 -/

lemma cash_flow_details_irrelevant (bl : ℕ) (c par : ℚ) (lt : String) :
    (bond_cash_flow_calc bl c par lt true).1 = (bond_cash_flow_calc bl c par lt false).1 := by
  unfold bond_cash_flow_calc
  split_ifs <;> rfl

lemma par_price_details_irrelevant (bl : ℕ) (c par y call : ℚ) (lt : String) :
    (bond_price_calc bl c par y call lt true).1 =
      (bond_price_calc bl c par y call lt false).1 := by
  by_cases h : strLower lt = "semiannual" ∨ strLower lt = "annual"
  · rw [bond_price_calc_val lt h, bond_price_calc_val lt h]
  · unfold bond_price_calc
    rw [if_pos h, if_pos h]

set_option maxHeartbeats 1000000 in
lemma sett_price_details_irrelevant (rpow : ℚ → ℚ → ℚ) (mat sett : Date)
    (c par y : ℚ) (pr dc lt : String) :
    (bond_price_calc_sett rpow mat sett c par y pr dc lt true).1 =
      (bond_price_calc_sett rpow mat sett c par y pr dc lt false).1 := by
  unfold bond_price_calc_sett
  by_cases h1 : ¬(strLower lt = "semiannual" ∨ strLower lt = "annual")
  · rw [if_pos h1, if_pos h1]
  · rw [if_neg h1, if_neg h1]
    by_cases h2 : ¬(strLower pr = "clean" ∨ strLower pr = "dirty")
    · rw [if_pos h2, if_pos h2]
    · rw [if_neg h2, if_neg h2]
      dsimp only
      split <;> rename_i heq <;> simp only [heq]
      rw [bond_cash_flow_calc_val "annual" (Or.inr strLower_annual),
        bond_cash_flow_calc_val "annual" (Or.inr strLower_annual)]
      dsimp only
      split <;> rename_i hh <;> simp only [hh]

set_option maxHeartbeats 1000000 in
lemma ytm_details_irrelevant (bl : ℕ) (c p par call : ℚ) (lt : String) :
    (bond_yield_maturity_calc bl c p par call lt true).1 =
      (bond_yield_maturity_calc bl c p par call lt false).1 := by
  unfold bond_yield_maturity_calc
  by_cases h1 : ¬(strLower lt = "semiannual" ∨ strLower lt = "annual")
  · rw [if_pos h1, if_pos h1]
  · rw [if_neg h1, if_neg h1]

/-- C9: each of the four core entry points returns the same numeric value
with the verbose/details flag on as off; the flag only selects whether the
reporting log is emitted. -/
theorem C9_details_flag_pure :
    (∀ (bl : ℕ) (c par : ℚ) (lt : String),
      (bond_cash_flow_calc bl c par lt true).1 = (bond_cash_flow_calc bl c par lt false).1) ∧
    (∀ (bl : ℕ) (c par y call : ℚ) (lt : String),
      (bond_price_calc bl c par y call lt true).1 =
        (bond_price_calc bl c par y call lt false).1) ∧
    (∀ (rpow : ℚ → ℚ → ℚ) (mat sett : Date) (c par y : ℚ) (pr dc lt : String),
      (bond_price_calc_sett rpow mat sett c par y pr dc lt true).1 =
        (bond_price_calc_sett rpow mat sett c par y pr dc lt false).1) ∧
    (∀ (bl : ℕ) (c p par call : ℚ) (lt : String),
      (bond_yield_maturity_calc bl c p par call lt true).1 =
        (bond_yield_maturity_calc bl c p par call lt false).1) :=
  ⟨cash_flow_details_irrelevant, par_price_details_irrelevant,
    sett_price_details_irrelevant, ytm_details_irrelevant⟩

/-! ## C2 -/

/-- C2 counterexample: `bond_cash_flow_calc` with coupon rate `1.5` and
semiannual frequency.  The argument is strictly greater than 1, but the
`> 1` percent test is applied only after dividing by the periods-per-year
factor (`1.5 / 2 = 0.75 ≤ 1`), so the rate is NOT divided by 100: the
per-period coupon is `1000 × 0.75 = 750`, not the
`1000 × ((1.5/100)/2) = 7.5` the claim's rule mandates. -/
theorem C2_counterexample :
    (bond_cash_flow_calc 1 (3/2) 1000 "semiannual" false).1 = .ok ⟨750, 1000, 2⟩ ∧
    (750 : ℚ) ≠ 1000 * ((3/2) / 100 / 2) := by
  constructor
  · norm_num [bond_cash_flow_calc, normalize, strLower_semiannual]
  · norm_num

/-- C2 (amended): the `> 1`-means-percent normalization is applied to the
PERIOD-ADJUSTED rate (the argument divided by the periods-per-year
factor), not to the raw argument; moreover in `bond_price_calc` the
coupon rate passes through the adjustment twice — once at line 99 and once
more inside `bond_cash_flow_calc`, which is called with the
already-normalized rate — while the required yield is adjusted exactly
once.  With that qualification the rule applies identically to both rates
and both frequencies. -/
theorem C2_rate_normalization_amended (bl : ℕ) (c par y call : ℚ) (lt : String) (d : Bool)
    (h : strLower lt = "semiannual" ∨ strLower lt = "annual") :
    (bond_cash_flow_calc bl c par lt d).1 =
      .ok ⟨par * normalize (c / ((if strLower lt = "semiannual" then 2 else 1 : ℕ) : ℚ)),
           par, bl * (if strLower lt = "semiannual" then 2 else 1)⟩ ∧
    (bond_price_calc bl c par y call lt d).1 =
      .ok (discount_step (bl * periodOf lt)
            (par * normalize (normalize (c / (periodOf lt : ℚ))))
            (if 0 < call then call else par)
            (normalize (y / (periodOf lt : ℚ)))) :=
  ⟨bond_cash_flow_calc_val lt h bl c par d, bond_price_calc_val lt h bl c par y call d⟩

theorem C2_rate_normalization_witness :
    (strLower "semiannual" = "semiannual" ∨ strLower "semiannual" = "annual") ∧
    ((bond_cash_flow_calc 1 (3/2) 1000 "semiannual" false).1 =
      .ok ⟨1000 * normalize ((3/2 : ℚ) /
              ((if strLower "semiannual" = "semiannual" then 2 else 1 : ℕ) : ℚ)),
           1000, 1 * (if strLower "semiannual" = "semiannual" then 2 else 1)⟩ ∧
    (bond_price_calc 1 (3/2) 1000 4 0 "semiannual" false).1 =
      .ok (discount_step (1 * periodOf "semiannual")
            (1000 * normalize (normalize ((3/2 : ℚ) / (periodOf "semiannual" : ℚ))))
            (if (0 : ℚ) < 0 then 0 else 1000)
            (normalize ((4 : ℚ) / (periodOf "semiannual" : ℚ))))) :=
  ⟨Or.inl strLower_semiannual,
    C2_rate_normalization_amended 1 (3/2) 1000 4 0 "semiannual" false
      (Or.inl strLower_semiannual)⟩

/-! ## C8 -/

/-- When the settlement date is not strictly before maturity and the other
enumerated arguments are valid, `time_ratio_calc` fails with the full
`InvalidDateOrder` message, but `bond_price_calc_sett` indexes `[0]` into
the returned string and hands the caller only its first character. -/
lemma sett_invalid_order (rpow : ℚ → ℚ → ℚ) (mat sett : Date) (c par y : ℚ)
    (pr dc lt : String) (d : Bool)
    (hlt : strLower lt = "semiannual" ∨ strLower lt = "annual")
    (hpr : strLower pr = "clean" ∨ strLower pr = "dirty")
    (hord : daysFromCivil mat ≤ daysFromCivil sett) :
    (bond_price_calc_sett rpow mat sett c par y pr dc lt d).1 = .strRes "S" := by
  unfold bond_price_calc_sett
  rw [if_neg (not_not_intro hlt), if_neg (not_not_intro hpr)]
  have htr : time_ratio_calc mat sett
      ((if strLower lt = "semiannual" then 2 else 0) +
        (if strLower lt = "annual" then 1 else 0)) dc lt =
      .error "Settlement cannot come after maturity of bond!" := by
    unfold time_ratio_calc
    rw [if_pos hord]
  simp only [htr]
  decide

/-- C8 (amended): with settlement not strictly before maturity, the
time-ratio step fails with the `InvalidDateOrder` message and
`price_at_settlement` returns a distinguishable string failure value,
never mixed with a numeric result — but the value it propagates is only
the FIRST CHARACTER `"S"` of the message (the source indexes
`time_ratio_calc(...)[0]` into the error string), not the failure
unchanged. -/
theorem C8_invalid_date_propagation (rpow : ℚ → ℚ → ℚ) (mat sett : Date) (c par y : ℚ)
    (pr dc lt : String) (d : Bool)
    (hlt : strLower lt = "semiannual" ∨ strLower lt = "annual")
    (hpr : strLower pr = "clean" ∨ strLower pr = "dirty")
    (hord : daysFromCivil mat ≤ daysFromCivil sett) :
    (bond_price_calc_sett rpow mat sett c par y pr dc lt d).1 = .strRes "S" :=
  sett_invalid_order rpow mat sett c par y pr dc lt d hlt hpr hord

theorem C8_invalid_date_witness :
    (strLower "semiannual" = "semiannual" ∨ strLower "semiannual" = "annual") ∧
    (strLower "clean" = "clean" ∨ strLower "clean" = "dirty") ∧
    daysFromCivil ⟨2020, 1, 1⟩ ≤ daysFromCivil ⟨2020, 1, 1⟩ ∧
    (bond_price_calc_sett (fun _ _ => 0) ⟨2020, 1, 1⟩ ⟨2020, 1, 1⟩ 5 1000 6
      "clean" "3060" "semiannual" true).1 = .strRes "S" :=
  ⟨Or.inl strLower_semiannual, Or.inl strLower_clean, le_refl _,
    C8_invalid_date_propagation (fun _ _ => 0) ⟨2020, 1, 1⟩ ⟨2020, 1, 1⟩ 5 1000 6
      "clean" "3060" "semiannual" true (Or.inl strLower_semiannual)
      (Or.inl strLower_clean) (le_refl _)⟩

/-- C8 counterexample: at maturity 2020-01-01 and settlement 2021-01-01,
the settlement pricer returns the one-character string `"S"`, which is not
the unchanged `InvalidDateOrder` failure
`"Settlement cannot come after maturity of bond!"`. -/
theorem C8_counterexample :
    (bond_price_calc_sett (fun _ _ => 0) ⟨2020, 1, 1⟩ ⟨2021, 1, 1⟩ 5 1000 6
      "clean" "3060" "semiannual" true).1 = .strRes "S" ∧
    ("S" : String) ≠ "Settlement cannot come after maturity of bond!" := by
  constructor
  · exact sett_invalid_order (fun _ _ => 0) ⟨2020, 1, 1⟩ ⟨2021, 1, 1⟩ 5 1000 6
      "clean" "3060" "semiannual" true (Or.inl strLower_semiannual)
      (Or.inl strLower_clean) (by decide)
  · decide

/-! ## C4 -/

lemma sum_modifyHead_sub (l : List ℚ) (a : ℚ) (h : l ≠ []) :
    (l.modifyHead (fun b => b - a)).sum = l.sum - a := by
  cases l with
  | nil => exact absurd rfl h
  | cons x xs =>
    simp only [List.modifyHead, List.sum_cons]
    ring

lemma replicate_head?_some {n : ℕ} {a b : ℚ} (h : (List.replicate n a).head? = some b) :
    b = a ∧ 0 < n := by
  cases n with
  | zero => simp at h
  | succ m =>
    simp only [List.replicate, List.head?_cons, Option.some.injEq] at h
    exact ⟨h.symm, Nat.succ_pos m⟩

/-- C4: for every input (and every float-power model `rpow`), the dirty
settlement price equals the clean settlement price plus the accrued
interest `coupon_amount × accrued_ratio`, because the clean variant
subtracts the accrued interest from the first discounted cash flow only;
on every failure path the two variants fail identically. -/
theorem C4_clean_dirty_accrued (rpow : ℚ → ℚ → ℚ) (mat sett : Date) (c par y : ℚ)
    (dc lt : String) (d : Bool) :
    (bond_price_calc_sett rpow mat sett c par y "dirty" dc lt d).1 =
      SettOut.addVal (accrued_interest mat sett c par dc lt)
        ((bond_price_calc_sett rpow mat sett c par y "clean" dc lt d).1) := by
  unfold bond_price_calc_sett
  by_cases h1 : ¬(strLower lt = "semiannual" ∨ strLower lt = "annual")
  · rw [if_pos h1, if_pos h1]
    rfl
  · rw [if_neg h1, if_neg h1,
      if_neg (not_not_intro (Or.inr strLower_dirty)),
      if_neg (not_not_intro (Or.inl strLower_clean))]
    rcases htr : time_ratio_calc mat sett
        ((if strLower lt = "semiannual" then 2 else 0) +
          (if strLower lt = "annual" then 1 else 0)) dc lt with s | ⟨tr, ai⟩
    · simp only [htr]
      rfl
    · simp only [htr]
      rw [bond_cash_flow_calc_val "annual" (Or.inr strLower_annual)]
      have hacc : accrued_interest mat sett c par dc lt =
          (par * normalize (normalize (c /
            (((if strLower lt = "semiannual" then 2 else 0) +
              (if strLower lt = "annual" then 1 else 0) : ℕ) : ℚ)))) * ai := by
        unfold accrued_interest
        simp only [htr]
      dsimp only
      split <;> rename_i hh
      · simp only [SettOut.addVal]
      · obtain ⟨rfl, hn⟩ := replicate_head?_some hh
        simp only [strLower_clean, strLower_dirty, dirty_ne_clean, if_false,
          eq_self_iff_true, if_true, SettOut.addVal, hacc]
        rw [sum_modifyHead_sub]
        · congr 1
          have hc1 : ((if strLower "annual" = "semiannual" then 2 else 1 : ℕ) : ℚ) = 1 := by
            rw [if_neg (by rw [strLower_annual]; exact annual_ne_semiannual)]
            norm_num
          rw [hc1, div_one]
          ring
        · apply List.ne_nil_of_length_pos
          rw [List.length_zipWith, List.length_set, List.length_replicate,
            List.length_map, List.length_range, min_self]
          exact hn

/-! ## Solver lemmas -/

lemma round2_zero : round2 0 = 0 := by
  norm_num [round2, roundHalfEven]

/-- Every entry of the solver's price array is a fixed point of 2-decimal
rounding (`bond_price_calc` rounds its total, line 109). -/
lemma price3_round2_fixed (bl : ℕ) (c par y call : ℚ) (lt : String) :
    round2 (price3 bl c par y call lt) = price3 bl c par y call lt := by
  by_cases h : strLower lt = "semiannual" ∨ strLower lt = "annual"
  · unfold price3
    rw [bond_price_calc_val lt h]
    simp only [discount_step]
    exact round2_idem _
  · unfold price3 bond_price_calc
    rw [if_pos h]
    exact round2_zero

lemma grid_prices_round2_fixed (bl : ℕ) (c par call : ℚ) (lt : String) :
    ∀ q ∈ grid_prices bl c par call lt, round2 q = q := by
  intro q hq
  unfold grid_prices at hq
  obtain ⟨y, -, rfl⟩ := List.mem_map.mp hq
  exact price3_round2_fixed bl c par y call lt

/-- On a sorted list containing `t`, the left insertion point (count of
entries strictly below `t`) indexes an occurrence of `t`. -/
lemma sorted_getElem?_countP {l : List ℚ} (hs : l.Pairwise (fun a b => a ≤ b)) {t : ℚ}
    (ht : t ∈ l) :
    l[l.countP (fun x => decide (x < t))]? = some t := by
  induction l with
  | nil => cases ht
  | cons a tl ih =>
    rw [List.pairwise_cons] at hs
    by_cases hat : a < t
    · have htl : t ∈ tl := by
        rcases List.mem_cons.mp ht with h | h
        · rw [h] at hat
          exact absurd hat (lt_irrefl a)
        · exact h
      rw [List.countP_cons_of_pos _ _ (by simpa using hat), List.getElem?_cons_succ]
      exact ih hs.2 htl
    · have h0 : tl.countP (fun x => decide (x < t)) = 0 := by
        rw [List.countP_eq_zero]
        intro x hx
        simp only [decide_eq_true_eq, not_lt]
        exact le_trans (not_lt.mp hat) (hs.1 x hx)
      rw [List.countP_cons_of_neg _ _ (by simpa using hat), h0, List.getElem?_cons_zero]
      rcases List.mem_cons.mp ht with h | h
      · rw [h]
      · exact congrArg some (le_antisymm (hs.1 t h) (not_lt.mp hat))

/-- The first element of `np.where(prices == v)` is the first index whose
entry equals `v`. -/
lemma enumFrom_filter_head (v : ℚ) :
    ∀ (l : List ℚ) (n : ℕ), v ∈ l →
      (((l.enumFrom n).filter (fun q => decide (q.2 = v))).map Prod.fst).head? =
        some (n + l.findIdx (fun x => decide (x = v))) := by
  intro l
  induction l with
  | nil => intro n h; cases h
  | cons a tl ih =>
    intro n hv
    rw [List.enumFrom_cons]
    by_cases ha : a = v
    · rw [List.filter_cons_of_pos (by simpa using ha), List.map_cons, List.head?_cons,
        List.findIdx_cons]
      simp [ha]
    · rw [List.filter_cons_of_neg (by simpa using ha)]
      have hv' : v ∈ tl := by
        rcases List.mem_cons.mp hv with h | h
        · exact absurd h.symm ha
        · exact h
      rw [ih (n + 1) hv', List.findIdx_cons]
      have hfa : (decide (a = v)) = false := by simpa using ha
      rw [hfa]
      simp only [cond_false, Option.some.injEq]
      omega

/-- `findIdx` characterisation by the first index satisfying the
predicate. -/
lemma findIdx_eq_of_getElem {l : List ℚ} {pr : ℚ → Bool} {i : ℕ} (hi : i < l.length)
    (hpi : pr (l.get ⟨i, hi⟩) = true)
    (hbefore : ∀ j (hj : j < i), pr (l.get ⟨j, lt_trans hj hi⟩) = false) :
    l.findIdx pr = i := by
  induction l generalizing i with
  | nil => simp at hi
  | cons a tl ih =>
    cases i with
    | zero =>
      rw [List.findIdx_cons]
      simp only [List.get_eq_getElem, List.getElem_cons_zero] at hpi
      rw [hpi]
      rfl
    | succ k =>
      have h0 : pr a = false := by
        have h := hbefore 0 (Nat.succ_pos k)
        simpa only [List.get_eq_getElem, List.getElem_cons_zero] using h
      rw [List.findIdx_cons, h0]
      simp only [cond_false]
      have hk : k < tl.length := by
        have := hi
        simp only [List.length_cons] at this
        omega
      have hpk : pr (tl.get ⟨k, hk⟩) = true := by
        simp only [List.get_eq_getElem, List.getElem_cons_succ] at hpi
        exact hpi
      have hbk : ∀ j (hj : j < k), pr (tl.get ⟨j, lt_trans hj hk⟩) = false := by
        intro j hj
        have h := hbefore (j + 1) (by omega)
        simpa only [List.get_eq_getElem, List.getElem_cons_succ] using h
      rw [ih hk hpk hbk]

/-- Reduction of `nearest_match` once the insertion-point lookup is
known. -/
lemma nearest_match_eq_of_getElem (bp : List ℚ) (p v : ℚ)
    (h : (List.insertionSort (fun a b => a ≤ b) bp)[
      searchsorted ((List.insertionSort (fun a b => a ≤ b) bp).map round2)
        (round2 p)]? = some v) :
    nearest_match bp p =
      some ((bp.enum.filter (fun q => decide (q.2 = v))).map Prod.fst) := by
  delta nearest_match
  rw [h]

/-- Reduction of `nearest_match` when the insertion point is one past the
end (the `IndexError` case). -/
lemma nearest_match_eq_none_of_getElem (bp : List ℚ) (p : ℚ)
    (h : (List.insertionSort (fun a b => a ≤ b) bp)[
      searchsorted ((List.insertionSort (fun a b => a ≤ b) bp).map round2)
        (round2 p)]? = none) :
    nearest_match bp p = none := by
  delta nearest_match
  rw [h]

set_option maxRecDepth 4000 in
/-- When the rounded observed price occurs in the price array, the solver
returns the grid yield at the FIRST index whose (already rounded) price
equals the rounded observed price. -/
lemma solver_first_match (bl : ℕ) (c par call p : ℚ) (lt : String) (d : Bool)
    (hlt : strLower lt = "semiannual" ∨ strLower lt = "annual")
    (hp : round2 p ∈ grid_prices bl c par call lt) :
    (bond_yield_maturity_calc bl c p par call lt d).1 =
      .val (req_yield_grid.getD
        ((grid_prices bl c par call lt).findIdx (fun x => decide (x = round2 p))) 0) := by
  have hperm : List.Perm (List.insertionSort (fun a b => a ≤ b)
      (grid_prices bl c par call lt)) (grid_prices bl c par call lt) :=
    List.perm_insertionSort _ _
  have hsorted : (List.insertionSort (fun a b => a ≤ b)
      (grid_prices bl c par call lt)).Pairwise (fun a b => a ≤ b) :=
    List.sorted_insertionSort _ _
  have hfix : ∀ q ∈ List.insertionSort (fun a b => a ≤ b) (grid_prices bl c par call lt),
      round2 q = q :=
    fun q hq => grid_prices_round2_fixed bl c par call lt q (hperm.mem_iff.mp hq)
  have hmapid : (List.insertionSort (fun a b => a ≤ b)
        (grid_prices bl c par call lt)).map round2 =
      List.insertionSort (fun a b => a ≤ b) (grid_prices bl c par call lt) := by
    conv_rhs => rw [← List.map_id (List.insertionSort (fun a b => a ≤ b)
      (grid_prices bl c par call lt))]
    exact List.map_congr_left hfix
  have hmem : round2 p ∈ (List.insertionSort (fun a b => a ≤ b)
      (grid_prices bl c par call lt)) := hperm.mem_iff.mpr hp
  have hss : (List.insertionSort (fun a b => a ≤ b) (grid_prices bl c par call lt))[
      searchsorted ((List.insertionSort (fun a b => a ≤ b)
        (grid_prices bl c par call lt)).map round2) (round2 p)]? = some (round2 p) := by
    unfold searchsorted
    rw [hmapid]
    exact sorted_getElem?_countP hsorted hmem
  have hnm : nearest_match (grid_prices bl c par call lt) p =
      some (((grid_prices bl c par call lt).enum.filter
        (fun q => decide (q.2 = round2 p))).map Prod.fst) :=
    nearest_match_eq_of_getElem (grid_prices bl c par call lt) p (round2 p) hss
  have hhead : (((grid_prices bl c par call lt).enum.filter
      (fun q => decide (q.2 = round2 p))).map Prod.fst).head? =
      some (0 + (grid_prices bl c par call lt).findIdx (fun x => decide (x = round2 p))) :=
    enumFrom_filter_head (round2 p) (grid_prices bl c par call lt) 0 hp
  rw [solver_valid bl c p par call lt d hlt]
  have hout := ytm_out_val (grid_prices bl c par call lt) p _ _ hnm hhead
  rw [Nat.zero_add] at hout
  rw [hout]

/-- `findIdx` only depends on the predicate's values on the list. -/
lemma findIdx_congr_of_mem {l : List ℚ} {pq pw : ℚ → Bool}
    (h : ∀ x ∈ l, pq x = pw x) : l.findIdx pq = l.findIdx pw := by
  induction l with
  | nil => rfl
  | cons a tl ih =>
    rw [List.findIdx_cons, List.findIdx_cons, h a (List.mem_cons_self a tl),
      ih (fun x hx => h x (List.mem_cons_of_mem a hx))]

/-! ## C6 -/

/-- C6: whenever some grid point produces a rounded price equal to the
rounded observed price, the solver returns the yield at the FIRST matching
grid index (tie-break: first exact match wins).  The exact-match `try:`
branch itself is dead (C10), but the nearest-match fallback restores
precisely this behaviour: the insertion point of the rounded observed
price in the sorted rounded price array lands on an occurrence of that
value, and `np.where(bond_prices == ...)[...][0]` then picks the first
index of the original array carrying it. -/
theorem C6_first_exact_match (bl : ℕ) (c par call p : ℚ) (lt : String) (d : Bool)
    (hlt : strLower lt = "semiannual" ∨ strLower lt = "annual")
    (hp : round2 p ∈ (grid_prices bl c par call lt).map round2) :
    (bond_yield_maturity_calc bl c p par call lt d).1 =
      .val (req_yield_grid.getD
        ((grid_prices bl c par call lt).findIdx
          (fun x => decide (round2 x = round2 p))) 0) := by
  have hfix := grid_prices_round2_fixed bl c par call lt
  have hp2 : round2 p ∈ grid_prices bl c par call lt := by
    obtain ⟨y, hy, hyy⟩ := List.mem_map.mp hp
    rw [← hyy, hfix y hy]
    exact hy
  have hidx : (grid_prices bl c par call lt).findIdx
        (fun x => decide (round2 x = round2 p)) =
      (grid_prices bl c par call lt).findIdx (fun x => decide (x = round2 p)) :=
    findIdx_congr_of_mem (fun x hx => by rw [hfix x hx])
  rw [hidx]
  exact solver_first_match bl c par call p lt d hlt hp2

/-- Grid membership of a concrete candidate yield. -/
lemma mem_req_yield_grid (k : ℕ) (hk : k < 9999) :
    ((k : ℚ) + 1) / 100 ∈ req_yield_grid := by
  unfold req_yield_grid
  exact List.mem_map_of_mem _ (List.mem_range.mpr hk)

/-- The in-range grid lookup, characterised without unfolding the grid. -/
lemma req_yield_grid_getD (i : ℕ) (hi : i < 9999) :
    req_yield_grid.getD i 0 = ((i : ℚ) + 1) / 100 := by
  unfold req_yield_grid
  rw [List.getD_eq_getElem?_getD, List.getElem?_map, List.getElem?_range hi]
  rfl

/-- The par-date price at the tenor-1, 5%-coupon, 6%-yield grid point. -/
lemma price3_at_six : price3 1 5 1000 (6/100) 0 "annual" = 99057/100 := by
  unfold price3
  rw [bond_price_calc_val "annual" (Or.inr strLower_annual)]
  norm_num [discount_step, periodOf, normalize, round2, roundHalfEven,
    strLower_annual, annual_ne_semiannual]

/-- The rounded price 990.57 occurs in the tenor-1 price grid (at the
0.06 candidate yield). -/
lemma round2_mem_grid_at_six :
    round2 (99057/100 : ℚ) ∈ (grid_prices 1 5 1000 0 "annual").map round2 := by
  have h5 := mem_req_yield_grid 5 (by norm_num)
  have h6 : (6/100 : ℚ) ∈ req_yield_grid := by
    norm_num at h5 ⊢
    exact h5
  have hpm : price3 1 5 1000 (6/100) 0 "annual" ∈ grid_prices 1 5 1000 0 "annual" := by
    unfold grid_prices
    exact List.mem_map_of_mem _ h6
  rw [← price3_at_six]
  exact List.mem_map_of_mem _ hpm

/-- The price grid has one entry per candidate yield. -/
lemma grid_prices_length (bl : ℕ) (c par call : ℚ) (lt : String) :
    (grid_prices bl c par call lt).length = 9999 := by
  unfold grid_prices req_yield_grid
  rw [List.length_map, List.length_map, List.length_range]

/-- Entry `j` of the price grid is the scalar price at candidate yield
`(j+1)/100`. -/
lemma grid_prices_get (bl : ℕ) (c par call : ℚ) (lt : String) (j : ℕ)
    (hj : j < (grid_prices bl c par call lt).length) :
    (grid_prices bl c par call lt).get ⟨j, hj⟩ =
      price3 bl c par (((j : ℚ) + 1) / 100) call lt := by
  have hj9 : j < 9999 := by
    have hl := grid_prices_length bl c par call lt
    rw [hl] at hj
    exact hj
  have hq : (grid_prices bl c par call lt)[j]? =
      some (price3 bl c par (((j : ℚ) + 1) / 100) call lt) := by
    unfold grid_prices req_yield_grid
    rw [List.getElem?_map, List.getElem?_map, List.getElem?_range hj9]
    rfl
  have he := List.getElem?_eq_getElem hj
  rw [he] at hq
  rw [List.get_eq_getElem]
  exact Option.some.inj hq

/-- The tenor-10, 5%-coupon, par-1000 scalar price as a function of the
candidate yield. -/
lemma price3_ten (y : ℚ) :
    price3 10 (5/100) 1000 y 0 "annual" =
      (discount_step 10 50 1000 (normalize y)).bond_price := by
  unfold price3
  rw [bond_price_calc_val "annual" (Or.inr strLower_annual)]
  norm_num [periodOf, strLower_annual, annual_ne_semiannual, normalize]

/-- Witness for C6: the concrete bond of C1 (tenor 1, 5% coupon, par
1000) priced at 990.57. -/
theorem C6_first_exact_match_witness :
    ((strLower "annual" = "semiannual" ∨ strLower "annual" = "annual") ∧
      round2 (99057/100 : ℚ) ∈ (grid_prices 1 5 1000 0 "annual").map round2) ∧
    (bond_yield_maturity_calc 1 5 (99057/100) 1000 0 "annual" true).1 =
      .val (req_yield_grid.getD
        ((grid_prices 1 5 1000 0 "annual").findIdx
          (fun x => decide (round2 x = round2 (99057/100 : ℚ)))) 0) :=
  ⟨⟨Or.inr strLower_annual, round2_mem_grid_at_six⟩,
    C6_first_exact_match 1 5 1000 0 (99057/100) "annual" true
      (Or.inr strLower_annual) round2_mem_grid_at_six⟩

/-! ## C5 -/

/-- The price grid of the tenor-10 round-trip bond carries 926.39 at the
candidate yield 0.06. -/
lemma price3_ten_at_six : price3 10 (5/100) 1000 (6/100) 0 "annual" = 92639/100 := by
  rw [price3_ten]
  norm_num [discount_step, normalize, round2, roundHalfEven]

/-- 926.39 is a fixed point of 2-decimal rounding. -/
lemma round2_92639 : round2 (92639/100 : ℚ) = 92639/100 := by
  norm_num [round2, roundHalfEven]

/-- The rounded observed price 926.39 occurs in the tenor-10 price
grid. -/
lemma round2_mem_grid_ten :
    round2 (92639/100 : ℚ) ∈ grid_prices 10 (5/100) 1000 0 "annual" := by
  have h5 := mem_req_yield_grid 5 (by norm_num)
  have h6 : (6/100 : ℚ) ∈ req_yield_grid := by
    norm_num at h5 ⊢
    exact h5
  have hpm : price3 10 (5/100) 1000 (6/100) 0 "annual" ∈
      grid_prices 10 (5/100) 1000 0 "annual" := by
    unfold grid_prices
    exact List.mem_map_of_mem _ h6
  rw [round2_92639, ← price3_ten_at_six]
  exact hpm

set_option maxHeartbeats 2000000 in
/-- The first (and in fact only) grid index whose price rounds to 926.39
is index 5, the 0.06 candidate yield. -/
lemma findIdx_grid_ten :
    (grid_prices 10 (5/100) 1000 0 "annual").findIdx
      (fun x => decide (x = round2 (92639/100 : ℚ))) = 5 := by
  have hi : 5 < (grid_prices 10 (5/100) 1000 0 "annual").length := by
    rw [grid_prices_length]
    norm_num
  refine findIdx_eq_of_getElem hi ?_ ?_
  · rw [grid_prices_get]
    rw [price3_ten]
    norm_num [discount_step, normalize, round2, roundHalfEven]
  · intro j hj
    rw [grid_prices_get]
    rw [price3_ten]
    interval_cases j <;>
      norm_num [discount_step, normalize, round2, roundHalfEven]

/-- C5: the round-trip.  Pricing the tenor-10, 5%-coupon, par-1000 annual
bond at yield 0.06 gives 926.39, and the solver applied to that observed
price returns a yield within 0.0001 of 0.06 (here: exactly 0.06, the grid
value at the matching index). -/
theorem C5_round_trip :
    ∃ r, (bond_price_calc 10 (5/100) 1000 (6/100) 0 "annual" false).1 = .ok r ∧
      ∃ y, (bond_yield_maturity_calc 10 (5/100) r.bond_price 1000 0 "annual" true).1 =
          .val y ∧ |y - 6/100| ≤ 1/10000 := by
  refine ⟨⟨368, 55839/100, 92639/100⟩, ?_, 6/100, ?_, by norm_num⟩
  · rw [bond_price_calc_val "annual" (Or.inr strLower_annual)]
    norm_num [discount_step, periodOf, normalize, round2, roundHalfEven,
      strLower_annual, annual_ne_semiannual]
  · show (bond_yield_maturity_calc 10 (5/100) (92639/100) 1000 0 "annual" true).1 =
      .val (6/100)
    rw [solver_first_match 10 (5/100) 1000 0 (92639/100) "annual" true
      (Or.inr strLower_annual) round2_mem_grid_ten]
    rw [findIdx_grid_ten, req_yield_grid_getD 5 (by norm_num)]
    norm_num

/-! ## C7 -/

/-- The tenor-1, 5%-coupon, par-1000 scalar price as a function of the
candidate yield. -/
lemma price3_one (y : ℚ) :
    price3 1 5 1000 y 0 "annual" =
      (discount_step 1 50 1000 (normalize y)).bond_price := by
  unfold price3
  rw [bond_price_calc_val "annual" (Or.inr strLower_annual)]
  norm_num [periodOf, strLower_annual, annual_ne_semiannual, normalize]

/-- For a one-period bond the annuity factor collapses:
`(1 - 1/(1+e))/e = 1/(1+e)`. -/
lemma discount_step_one (e : ℚ) (he : 0 < e) :
    (discount_step 1 50 1000 e).bond_price =
      round2 (round2 (50 * (1 / (1 + e))) + round2 (1000 * (1 / (1 + e)))) := by
  have h1 : (1 : ℚ) + e ≠ 0 := by positivity
  have key : (1 - 1 / (1 + e) ^ 1) / e = 1 / (1 + e) := by
    rw [pow_one]
    field_simp
    ring
  unfold discount_step
  dsimp only
  rw [key, pow_one]

/-- An effective yield of at least 1% bounds the one-period price by
1040. -/
lemma discount_one_upper (e : ℚ) (he : 1/100 ≤ e) :
    (discount_step 1 50 1000 e).bond_price < 1040 := by
  rw [discount_step_one e (by linarith)]
  have h1e : (0 : ℚ) < 1 + e := by linarith
  have hfrac : 1 / (1 + e) ≤ 100/101 := by
    have := one_div_le_one_div_of_le (by norm_num : (0:ℚ) < 101/100)
      (by linarith : (101/100 : ℚ) ≤ 1 + e)
    simpa using this
  have hc := mul_le_mul_of_nonneg_left hfrac (by norm_num : (0:ℚ) ≤ 50)
  have hr := mul_le_mul_of_nonneg_left hfrac (by norm_num : (0:ℚ) ≤ 1000)
  have h1 := round2_le (50 * (1 / (1 + e)))
  have h2 := round2_le (1000 * (1 / (1 + e)))
  have h3 := round2_le (round2 (50 * (1 / (1 + e))) + round2 (1000 * (1 / (1 + e))))
  linarith

/-- An effective yield of at most 0.9999 bounds the one-period price
strictly above 525. -/
lemma discount_one_lower (e : ℚ) (h0 : 0 < e) (he : e ≤ 9999/10000) :
    525 < (discount_step 1 50 1000 e).bond_price := by
  rw [discount_step_one e h0]
  have h1e : (0 : ℚ) < 1 + e := by linarith
  have hfrac : (10000/19999 : ℚ) ≤ 1 / (1 + e) := by
    have := one_div_le_one_div_of_le h1e (by linarith : (1:ℚ) + e ≤ 19999/10000)
    simpa using this
  have hc := mul_le_mul_of_nonneg_left hfrac (by norm_num : (0:ℚ) ≤ 50)
  have hr := mul_le_mul_of_nonneg_left hfrac (by norm_num : (0:ℚ) ≤ 1000)
  have h1 := le_round2 (50 * (1 / (1 + e)))
  have h2 := le_round2 (1000 * (1 / (1 + e)))
  have h3 := le_round2 (round2 (50 * (1 / (1 + e))) + round2 (1000 * (1 / (1 + e))))
  linarith

/-- Rate normalization on a grid value of at most 1 is the identity. -/
lemma normalize_grid_le (k : ℕ) (hk : k ≤ 99) :
    normalize (((k : ℚ) + 1) / 100) = ((k : ℚ) + 1) / 100 := by
  unfold normalize
  rw [if_neg]
  have hc : (k : ℚ) ≤ 99 := by exact_mod_cast hk
  rw [not_lt, div_le_one (by norm_num : (0:ℚ) < 100)]
  linarith

/-- Rate normalization divides a grid value above 1 by 100. -/
lemma normalize_grid_gt (k : ℕ) (hk : 99 < k) :
    normalize (((k : ℚ) + 1) / 100) = ((k : ℚ) + 1) / 10000 := by
  unfold normalize
  rw [if_pos, div_div]
  · norm_num
  · have hq : (99 : ℚ) < (k : ℚ) := by exact_mod_cast hk
    rw [lt_div_iff₀ (by norm_num : (0:ℚ) < 100)]
    linarith

/-- The tenor-1 grid price at the candidate yield 1.00 (grid index 99):
the unique minimum 525. -/
lemma price3_one_at_99 :
    price3 1 5 1000 ((((99 : ℕ) : ℚ) + 1) / 100) 0 "annual" = 525 := by
  rw [price3_one]
  norm_num [discount_step, normalize, round2, roundHalfEven]

/-- Every price in the tenor-1 grid is below 1040 (every effective yield
after rate normalization is at least 1%). -/
lemma grid_one_upper : ∀ x ∈ grid_prices 1 5 1000 0 "annual", x < (1040:ℚ) := by
  intro x hx
  unfold grid_prices at hx
  obtain ⟨y, hy, rfl⟩ := List.mem_map.mp hx
  unfold req_yield_grid at hy
  obtain ⟨k, hk, rfl⟩ := List.mem_map.mp hy
  rw [price3_one]
  by_cases hk99 : k ≤ 99
  · rw [normalize_grid_le k hk99]
    apply discount_one_upper
    have h0 : (0:ℚ) ≤ (k : ℚ) := Nat.cast_nonneg k
    rw [le_div_iff₀ (by norm_num : (0:ℚ) < 100)]
    linarith
  · push_neg at hk99
    rw [normalize_grid_gt k hk99]
    apply discount_one_upper
    have hc : (100 : ℚ) ≤ (k : ℚ) := by exact_mod_cast hk99
    rw [le_div_iff₀ (by norm_num : (0:ℚ) < 10000)]
    linarith

/-- Every price in the tenor-1 grid is at least 525 (the price at the
maximal effective yield 1.00, reached at grid index 99). -/
lemma grid_one_min : ∀ x ∈ grid_prices 1 5 1000 0 "annual", (525:ℚ) ≤ x := by
  intro x hx
  unfold grid_prices at hx
  obtain ⟨y, hy, rfl⟩ := List.mem_map.mp hx
  have hk9999 : ∀ k : ℕ, k ∈ List.range 9999 → k < 9999 := fun k h => List.mem_range.mp h
  unfold req_yield_grid at hy
  obtain ⟨k, hk, rfl⟩ := List.mem_map.mp hy
  have hklt : k < 9999 := hk9999 k hk
  rw [price3_one]
  by_cases h99 : k = 99
  · subst h99
    rw [normalize_grid_le 99 (le_refl 99)]
    norm_num [discount_step, round2, roundHalfEven]
  · rcases Nat.lt_or_ge k 99 with h | h
    · rw [normalize_grid_le k (le_of_lt h)]
      have hcast : (k : ℚ) ≤ 98 := by
        have : k ≤ 98 := by omega
        exact_mod_cast this
      refine le_of_lt (discount_one_lower _ (by positivity) ?_)
      rw [div_le_div_iff (by norm_num : (0:ℚ) < 100) (by norm_num : (0:ℚ) < 10000)]
      linarith
    · have hgt : 99 < k := lt_of_le_of_ne h (Ne.symm h99)
      rw [normalize_grid_gt k hgt]
      have hcast : (k : ℚ) ≤ 9998 := by
        have : k ≤ 9998 := by omega
        exact_mod_cast this
      refine le_of_lt (discount_one_lower _ (by positivity) ?_)
      rw [div_le_div_iff (by norm_num : (0:ℚ) < 10000) (by norm_num : (0:ℚ) < 10000)]
      linarith

/-- The minimum price 525 is attained on the tenor-1 grid. -/
lemma mem_grid_one_525 : (525:ℚ) ∈ grid_prices 1 5 1000 0 "annual" := by
  have h99 := mem_req_yield_grid 99 (by norm_num)
  have hpm : price3 1 5 1000 ((((99 : ℕ) : ℚ) + 1) / 100) 0 "annual" ∈
      grid_prices 1 5 1000 0 "annual" := by
    unfold grid_prices
    exact List.mem_map_of_mem _ h99
  rw [← price3_one_at_99]
  exact hpm

/-- On a sorted list the entry at index 0 is any member that is a lower
bound. -/
lemma sorted_getElem?_zero_of_min {l : List ℚ} (hs : l.Pairwise (fun a b => a ≤ b)) {t : ℚ}
    (ht : t ∈ l) (hmin : ∀ x ∈ l, t ≤ x) : l[0]? = some t := by
  cases l with
  | nil => cases ht
  | cons a tl =>
    rw [List.getElem?_cons_zero]
    rcases List.mem_cons.mp ht with h | h
    · rw [h]
    · rw [List.pairwise_cons] at hs
      exact congrArg some (le_antisymm (hs.1 t h) (hmin a (List.mem_cons_self a tl)))

set_option maxHeartbeats 1000000 in
/-- Index 99 (candidate yield 1.00) is the first tenor-1 grid index whose
price is the minimum 525. -/
lemma findIdx_grid_one :
    (grid_prices 1 5 1000 0 "annual").findIdx (fun x => decide (x = 525)) = 99 := by
  have hi : 99 < (grid_prices 1 5 1000 0 "annual").length := by
    rw [grid_prices_length]
    norm_num
  refine findIdx_eq_of_getElem hi ?_ ?_
  · rw [grid_prices_get, price3_one_at_99]
    norm_num
  · intro j hj
    rw [grid_prices_get, price3_one, normalize_grid_le j (by omega)]
    have hcast : (j : ℚ) ≤ 98 := by
      have : j ≤ 98 := by omega
      exact_mod_cast this
    have hjnn : (0:ℚ) ≤ (j : ℚ) := Nat.cast_nonneg j
    have hpos : (0:ℚ) < ((j : ℚ) + 1) / 100 := by
      apply div_pos <;> linarith
    have hbnd : ((j : ℚ) + 1) / 100 ≤ 9999/10000 := by
      rw [div_le_div_iff (by norm_num : (0:ℚ) < 100) (by norm_num : (0:ℚ) < 10000)]
      linarith
    have hlow := discount_one_lower (((j : ℚ) + 1) / 100) hpos hbnd
    simp only [decide_eq_false_iff_not]
    exact ne_of_gt hlow

set_option maxHeartbeats 1000000 in
/-- When the rounded observed price is strictly above every grid price the
insertion point is one past the end of the sorted array:
`ordered_bond_prices[bond_index]` raises `IndexError` and the call dies
with an uncontrolled fault. -/
lemma solver_fault_above (bl : ℕ) (c par call p : ℚ) (lt : String) (d : Bool)
    (hlt : strLower lt = "semiannual" ∨ strLower lt = "annual")
    (habove : ∀ x ∈ grid_prices bl c par call lt, x < round2 p) :
    (bond_yield_maturity_calc bl c p par call lt d).1 = .fault := by
  have hperm : List.Perm (List.insertionSort (fun a b => a ≤ b)
      (grid_prices bl c par call lt)) (grid_prices bl c par call lt) :=
    List.perm_insertionSort _ _
  have hfix : ∀ q ∈ List.insertionSort (fun a b => a ≤ b) (grid_prices bl c par call lt),
      round2 q = q :=
    fun q hq => grid_prices_round2_fixed bl c par call lt q (hperm.mem_iff.mp hq)
  have hmapid : (List.insertionSort (fun a b => a ≤ b)
        (grid_prices bl c par call lt)).map round2 =
      List.insertionSort (fun a b => a ≤ b) (grid_prices bl c par call lt) := by
    conv_rhs => rw [← List.map_id (List.insertionSort (fun a b => a ≤ b)
      (grid_prices bl c par call lt))]
    exact List.map_congr_left hfix
  have hcount : searchsorted ((List.insertionSort (fun a b => a ≤ b)
      (grid_prices bl c par call lt)).map round2) (round2 p) =
      (List.insertionSort (fun a b => a ≤ b) (grid_prices bl c par call lt)).length := by
    unfold searchsorted
    rw [hmapid]
    rw [List.countP_eq_length]
    intro x hx
    simpa using habove x (hperm.mem_iff.mp hx)
  have hnone : (List.insertionSort (fun a b => a ≤ b) (grid_prices bl c par call lt))[
      searchsorted ((List.insertionSort (fun a b => a ≤ b)
        (grid_prices bl c par call lt)).map round2) (round2 p)]? = none := by
    rw [hcount]
    exact List.getElem?_eq_none (le_refl _)
  have hnm := nearest_match_eq_none_of_getElem (grid_prices bl c par call lt) p hnone
  have hout := ytm_out_fault_of_none (grid_prices bl c par call lt) p hnm
  rw [solver_valid bl c p par call lt d hlt, hout]

set_option maxHeartbeats 1000000 in
/-- When the rounded observed price is strictly below the tenor-1 grid's
minimum price 525, the insertion point is 0, the sorted array's head is
the minimum, and the solver returns the grid yield 1.00 at the first
index attaining it (index 99, the maximal effective yield after rate
normalization). -/
lemma solver_below_range (p : ℚ) (d : Bool) (hb : round2 p < 525) :
    (bond_yield_maturity_calc 1 5 p 1000 0 "annual" d).1 = .val 1 := by
  have hperm : List.Perm (List.insertionSort (fun a b => a ≤ b)
      (grid_prices 1 5 1000 0 "annual")) (grid_prices 1 5 1000 0 "annual") :=
    List.perm_insertionSort _ _
  have hsorted : (List.insertionSort (fun a b => a ≤ b)
      (grid_prices 1 5 1000 0 "annual")).Pairwise (fun a b => a ≤ b) :=
    List.sorted_insertionSort _ _
  have hfix : ∀ q ∈ List.insertionSort (fun a b => a ≤ b) (grid_prices 1 5 1000 0 "annual"),
      round2 q = q :=
    fun q hq => grid_prices_round2_fixed 1 5 1000 0 "annual" q (hperm.mem_iff.mp hq)
  have hmapid : (List.insertionSort (fun a b => a ≤ b)
        (grid_prices 1 5 1000 0 "annual")).map round2 =
      List.insertionSort (fun a b => a ≤ b) (grid_prices 1 5 1000 0 "annual") := by
    conv_rhs => rw [← List.map_id (List.insertionSort (fun a b => a ≤ b)
      (grid_prices 1 5 1000 0 "annual"))]
    exact List.map_congr_left hfix
  have hmem525s : (525:ℚ) ∈ List.insertionSort (fun a b => a ≤ b)
      (grid_prices 1 5 1000 0 "annual") := hperm.mem_iff.mpr mem_grid_one_525
  have hmin_s : ∀ x ∈ List.insertionSort (fun a b => a ≤ b)
      (grid_prices 1 5 1000 0 "annual"), (525:ℚ) ≤ x :=
    fun x hx => grid_one_min x (hperm.mem_iff.mp hx)
  have hcount0 : searchsorted ((List.insertionSort (fun a b => a ≤ b)
      (grid_prices 1 5 1000 0 "annual")).map round2) (round2 p) = 0 := by
    unfold searchsorted
    rw [hmapid]
    rw [List.countP_eq_zero]
    intro x hx
    simp only [decide_eq_true_eq, not_lt]
    exact le_trans (le_of_lt hb) (hmin_s x hx)
  have hgetE : (List.insertionSort (fun a b => a ≤ b) (grid_prices 1 5 1000 0 "annual"))[
      searchsorted ((List.insertionSort (fun a b => a ≤ b)
        (grid_prices 1 5 1000 0 "annual")).map round2) (round2 p)]? = some 525 := by
    rw [hcount0]
    exact sorted_getElem?_zero_of_min hsorted hmem525s hmin_s
  have hnm := nearest_match_eq_of_getElem (grid_prices 1 5 1000 0 "annual") p 525 hgetE
  have hhead := enumFrom_filter_head 525 (grid_prices 1 5 1000 0 "annual") 0 mem_grid_one_525
  rw [Nat.zero_add] at hhead
  have hout := ytm_out_val (grid_prices 1 5 1000 0 "annual") p _ _ hnm hhead
  rw [findIdx_grid_one, req_yield_grid_getD 99 (by norm_num)] at hout
  norm_num at hout
  rw [solver_valid 1 5 p 1000 0 "annual" d (Or.inr strLower_annual), hout]

/-- C7: corrected.  For the tenor-1, 5%-coupon, par-1000 annual bond: an
observed price strictly above every achievable grid price does NOT return
a boundary yield — the nearest-match path raises an uncontrolled
`IndexError` (`fault`); an observed price strictly below the minimum
achievable price returns the yield of the minimum-price grid point, which
is the grid value 1.00 at index 99 (the maximal effective yield after rate
normalization), not the highest grid yield 99.99. -/
theorem C7_out_of_range (p : ℚ) (d : Bool) :
    ((1040 ≤ round2 p) →
      (bond_yield_maturity_calc 1 5 p 1000 0 "annual" d).1 = .fault) ∧
    ((round2 p < 525) →
      (bond_yield_maturity_calc 1 5 p 1000 0 "annual" d).1 = .val 1) := by
  constructor
  · intro h
    exact solver_fault_above 1 5 1000 0 p "annual" d (Or.inr strLower_annual)
      (fun x hx => lt_of_lt_of_le (grid_one_upper x hx) h)
  · intro h
    exact solver_below_range p d h

/-- Witness for C7 at the concrete out-of-range prices 1,000,000 (above)
and 0 (below). -/
theorem C7_out_of_range_witness :
    ((1040 : ℚ) ≤ round2 1000000 ∧
      (bond_yield_maturity_calc 1 5 1000000 1000 0 "annual" true).1 = .fault) ∧
    (round2 0 < 525 ∧
      (bond_yield_maturity_calc 1 5 0 1000 0 "annual" true).1 = .val 1) := by
  have h1 : (1040 : ℚ) ≤ round2 1000000 := by
    norm_num [round2, roundHalfEven]
  have h2 : round2 (0:ℚ) < 525 := by
    rw [round2_zero]
    norm_num
  exact ⟨⟨h1, (C7_out_of_range 1000000 true).1 h1⟩, ⟨h2, (C7_out_of_range 0 true).2 h2⟩⟩

/-- Counterexample to C7 as stated: at the above-range observed price
1,000,000 the solver does not return a result at all — the nearest-match
path itself raises (an uncontrolled `IndexError`), contradicting "returns
the corresponding boundary yield" and "never raises uncontrolled
faults". -/
theorem C7_counterexample :
    (bond_yield_maturity_calc 1 5 1000000 1000 0 "annual" false).1 = .fault := by
  have h1 : (1040 : ℚ) ≤ round2 1000000 := by
    norm_num [round2, roundHalfEven]
  exact solver_fault_above 1 5 1000 0 1000000 "annual" false (Or.inr strLower_annual)
    (fun x hx => lt_of_lt_of_le (grid_one_upper x hx) h1)

end FixedIncome
